import Mathlib

/-!
Verification of the escrow system's state machine and client helpers.

The escrow engine (the on-chain program) is modelled from the spec, since
only its clients, tests and documentation ship in the repository; the
client-side address derivation and account queries are embedded directly
from client/escrow-client.ts.
-/

namespace EscrowSys

/-- Participant identities (public keys), abstracted to naturals for the
engine model; the byte-level client model below uses 32-byte lists. -/
abbrev Identity := Nat

/-- Modelled from the spec: the `state` field of an escrow record, the
tagged variant `Initialized | Funded | Released | Cancelled` (spec section 3). -/
inductive EscrowState
  | stInitialized
  | stFunded
  | stReleased
  | stCancelled
deriving DecidableEq, Repr

/-- Modelled from the spec: the EscrowRecord data model (spec section 3);
the on-chain account struct is absent from the repository sources.
`storageDeposit` records the storage deposit locked when the record was
created, reclaimed by `close` (spec section 4.1). -/
structure EscrowRecord where
  buyer : Identity
  seller : Identity
  mint : Identity
  amount : Nat
  seed : Nat
  conditions : String
  state : EscrowState
  arbiter : Option Identity
  timeoutAt : Option Nat
  createdAt : Nat
  fundedAt : Option Nat
  releasedAt : Option Nat
  cancelledAt : Option Nat
  releasedBy : Option Identity
  cancelledBy : Option Identity
  storageDeposit : Nat
deriving DecidableEq, Repr

/-- The nine error codes, surfaced verbatim (spec section 6; docs/api.md 6000-6008). -/
inductive EscrowError
  | InvalidAmount
  | ConditionsTooLong
  | InvalidState
  | UnauthorizedDepositor
  | UnauthorizedRelease
  | UnauthorizedCancel
  | UnauthorizedArbiter
  | UnauthorizedUpdate
  | UnauthorizedClose
deriving DecidableEq, Repr

/-- Modelled from the spec: the six events of spec section 6 (the record
identity is implicit: the model tracks a single record, records being
fully independent per spec section 5). -/
inductive Event
  | Created (buyer seller : Identity) (amount : Nat) (mint : Identity)
  | Funded (amount : Nat)
  | Released (releasedBy : Identity) (amount : Nat)
  | Cancelled (cancelledBy : Identity)
  | ArbiterSet (arbiter : Identity)
  | ConditionsUpdated (conditions : String)
deriving DecidableEq, Repr

/-- Modelled from the spec: observable state around one escrow record —
the record slot (none before creation and after close), its vault's
balance, the buyer's and seller's token holdings, and the buyer's native
balance (receives the reclaimed storage deposit on close). -/
structure SysState where
  record : Option EscrowRecord
  vault : Nat
  buyerHolding : Nat
  sellerHolding : Nat
  buyerNative : Nat
deriving DecidableEq, Repr

/-- Modelled from the spec: the seven operations of spec section 4.1 with
their parameters plus the implicit caller identity. `create` stands for
the source's `initializeEscrow`; `rent` is the host's storage cost for
the new record. -/
inductive Op
  | create (caller : Identity) (amount seed : Nat) (seller mint : Identity)
      (conditions : String) (timeoutDuration : Option Nat) (rent : Nat)
  | deposit (caller : Identity)
  | setArbiter (caller arbiter : Identity)
  | updateConditions (caller : Identity) (text : String)
  | release (caller : Identity)
  | cancel (caller : Identity)
  | close (caller : Identity)

/-- Embedded from client/escrow-client.ts `isTimedOut`: no `timeoutAt`
means never timed out; otherwise timed out exactly when the current
timestamp has reached `timeoutAt`. -/
def isTimedOut (timeoutAt : Option Nat) (now : Nat) : Bool :=
  match timeoutAt with
  | none => false
  | some t => decide (t ≤ now)

/-- Modelled from the spec: release authorization (spec section 4.1,
"Authorization detail for `release`"): caller = buyer, or caller =
arbiter (if set), or now has reached `timeoutAt` (any caller). -/
def releaseAuthorized (r : EscrowRecord) (caller : Identity) (now : Nat) : Prop :=
  caller = r.buyer ∨ r.arbiter = some caller ∨ isTimedOut r.timeoutAt now = true

instance (r : EscrowRecord) (caller : Identity) (now : Nat) :
    Decidable (releaseAuthorized r caller now) := by
  unfold releaseAuthorized; infer_instance

/-- Modelled from the spec: cancel authorization (spec section 4.1):
buyer, or arbiter once one is set; never any other caller. -/
def cancelAuthorized (r : EscrowRecord) (caller : Identity) : Prop :=
  caller = r.buyer ∨ r.arbiter = some caller

instance (r : EscrowRecord) (caller : Identity) :
    Decidable (cancelAuthorized r caller) := by
  unfold cancelAuthorized; infer_instance

/-- Modelled from the spec: the record freshly created by `create` (spec
section 4.1 row `initialize`): state Initialized, `createdAt = now`,
`timeoutAt = now + timeoutDuration` when given, caller becomes buyer. -/
def mkRecord (now : Nat) (caller : Identity) (amount seed : Nat) (seller mint : Identity)
    (conditions : String) (timeoutDuration : Option Nat) (rent : Nat) : EscrowRecord :=
  { buyer := caller, seller := seller, mint := mint,
    amount := amount, seed := seed, conditions := conditions,
    state := .stInitialized, arbiter := none,
    timeoutAt := timeoutDuration.map (fun d => now + d),
    createdAt := now, fundedAt := none, releasedAt := none,
    cancelledAt := none, releasedBy := none, cancelledBy := none,
    storageDeposit := rent }

/-- Record update performed by a successful `deposit`. -/
def fundRec (now : Nat) (r : EscrowRecord) : EscrowRecord :=
  { r with state := .stFunded, fundedAt := some now }

/-- Record update performed by a successful `release`. -/
def releaseRec (now : Nat) (c : Identity) (r : EscrowRecord) : EscrowRecord :=
  { r with state := .stReleased, releasedAt := some now, releasedBy := some c }

/-- Record update performed by a successful `cancel`. -/
def cancelRec (now : Nat) (c : Identity) (r : EscrowRecord) : EscrowRecord :=
  { r with state := .stCancelled, cancelledAt := some now, cancelledBy := some c }

/-- Modelled from the spec: one atomic operation of the EscrowEngine
(spec section 4.1). State checks precede authorization checks (spec
section 4.4); validation errors precede both for `create`. On any error
nothing is produced; `applyOp` below realises the host's all-or-nothing
commit. The host token-transfer primitive is modelled with Nat balances
(truncated subtraction; effect theorems assume sufficient funds). -/
def step (now : Nat) (op : Op) (s : SysState) : Except EscrowError (SysState × List Event) :=
  match op with
  | .create caller amount seed seller mint conditions timeoutDuration rent =>
    match s.record with
    | some _ => .error .InvalidState
    | none =>
      if amount = 0 then .error .InvalidAmount
      else if conditions.length > 500 then .error .ConditionsTooLong
      else
        .ok ({ s with
                record := some
                  (mkRecord now caller amount seed seller mint conditions timeoutDuration rent),
                buyerNative := s.buyerNative - rent },
              [Event.Created caller seller amount mint])
  | .deposit caller =>
    match s.record with
    | none => .error .InvalidState
    | some r =>
      if r.state = .stInitialized then
        if caller = r.buyer then
          .ok ({ s with
                  record := some (fundRec now r),
                  vault := s.vault + r.amount,
                  buyerHolding := s.buyerHolding - r.amount },
                [Event.Funded r.amount])
        else .error .UnauthorizedDepositor
      else .error .InvalidState
  | .setArbiter caller arbiter =>
    match s.record with
    | none => .error .InvalidState
    | some r =>
      if r.state = .stInitialized ∨ r.state = .stFunded then
        if caller = r.buyer then
          .ok ({ s with record := some { r with arbiter := some arbiter } },
                [Event.ArbiterSet arbiter])
        else .error .UnauthorizedArbiter
      else .error .InvalidState
  | .updateConditions caller text =>
    match s.record with
    | none => .error .InvalidState
    | some r =>
      if r.state = .stInitialized then
        if caller = r.buyer then
          if text.length > 500 then .error .ConditionsTooLong
          else
            .ok ({ s with record := some { r with conditions := text } },
                  [Event.ConditionsUpdated text])
        else .error .UnauthorizedUpdate
      else .error .InvalidState
  | .release caller =>
    match s.record with
    | none => .error .InvalidState
    | some r =>
      if r.state = .stFunded then
        if releaseAuthorized r caller now then
          .ok ({ s with
                  record := some (releaseRec now caller r),
                  vault := 0,
                  sellerHolding := s.sellerHolding + s.vault },
                [Event.Released caller r.amount])
        else .error .UnauthorizedRelease
      else .error .InvalidState
  | .cancel caller =>
    match s.record with
    | none => .error .InvalidState
    | some r =>
      if r.state = .stInitialized ∨ r.state = .stFunded then
        if cancelAuthorized r caller then
          .ok ({ s with
                  record := some (cancelRec now caller r),
                  vault := 0,
                  buyerHolding :=
                    if r.state = .stFunded then s.buyerHolding + s.vault
                    else s.buyerHolding },
                [Event.Cancelled caller])
        else .error .UnauthorizedCancel
      else .error .InvalidState
  | .close caller =>
    match s.record with
    | none => .error .InvalidState
    | some r =>
      if r.state = .stReleased ∨ r.state = .stCancelled then
        if caller = r.buyer then
          .ok ({ s with
                  record := none,
                  buyerNative := s.buyerNative + r.storageDeposit },
                [])
        else .error .UnauthorizedClose
      else .error .InvalidState

/-- Modelled from the spec: the host's atomic all-or-nothing commit (spec
sections 4.1, 5, 7): a successful operation applies fully, a failed one
leaves the state untouched and emits nothing. -/
def applyOp (now : Nat) (op : Op) (s : SysState) : SysState × List Event :=
  match step now op s with
  | .ok res => res
  | .error _ => (s, [])

/-- The vault balance invariant of spec section 3: balance equals `amount`
while the record is Funded, and 0 at all other times, including when no
record exists. -/
def vaultInv (s : SysState) : Prop :=
  match s.record with
  | some r => s.vault = (if r.state = .stFunded then r.amount else 0)
  | none => s.vault = 0

/-- States reachable from an empty escrow slot (vault empty, any
holdings) by any sequence of operations. -/
inductive Reachable : SysState → Prop
  | start (bh sh bn : Nat) :
      Reachable { record := none, vault := 0, buyerHolding := bh,
                  sellerHolding := sh, buyerNative := bn }
  | next (now : Nat) (op : Op) (s : SysState) (h : Reachable s) :
      Reachable (applyOp now op s).1

/-- Inversion: what a successful `create` implies and produces. -/
theorem create_ok_inv {now : Nat} {caller : Identity} {amount seed : Nat}
    {seller mint : Identity} {conds : String} {td : Option Nat} {rent : Nat}
    {s s' : SysState} {evs : List Event}
    (h : step now (.create caller amount seed seller mint conds td rent) s = .ok (s', evs)) :
    s.record = none ∧ amount ≠ 0 ∧ conds.length ≤ 500 ∧
    s' = { s with
            record := some (mkRecord now caller amount seed seller mint conds td rent),
            buyerNative := s.buyerNative - rent } ∧
    evs = [Event.Created caller seller amount mint] := by
  rcases hrec : s.record with _ | r <;> simp only [step, hrec] at h
  · split at h
    next => cases h
    next ha =>
      split at h
      next => cases h
      next hc =>
        simp only [Except.ok.injEq, Prod.mk.injEq] at h
        exact ⟨rfl, ha, by omega, h.1.symm, h.2.symm⟩
  · cases h

/-- Inversion: what a successful `deposit` implies and produces. -/
theorem deposit_ok_inv {now : Nat} {c : Identity} {s s' : SysState} {evs : List Event}
    (h : step now (.deposit c) s = .ok (s', evs)) :
    ∃ r, s.record = some r ∧ r.state = .stInitialized ∧ c = r.buyer ∧
      s' = { s with
              record := some (fundRec now r),
              vault := s.vault + r.amount,
              buyerHolding := s.buyerHolding - r.amount } ∧
      evs = [Event.Funded r.amount] := by
  rcases hrec : s.record with _ | r <;> simp only [step, hrec] at h
  · cases h
  · split at h
    next hst =>
      split at h
      next hbuyer =>
        simp only [Except.ok.injEq, Prod.mk.injEq] at h
        exact ⟨r, rfl, hst, hbuyer, h.1.symm, h.2.symm⟩
      next => cases h
    next => cases h

/-- Inversion: what a successful `setArbiter` implies and produces. -/
theorem setArbiter_ok_inv {now : Nat} {c a : Identity} {s s' : SysState} {evs : List Event}
    (h : step now (.setArbiter c a) s = .ok (s', evs)) :
    ∃ r, s.record = some r ∧ (r.state = .stInitialized ∨ r.state = .stFunded) ∧
      c = r.buyer ∧
      s' = { s with record := some { r with arbiter := some a } } ∧
      evs = [Event.ArbiterSet a] := by
  rcases hrec : s.record with _ | r <;> simp only [step, hrec] at h
  · cases h
  · split at h
    next hst =>
      split at h
      next hbuyer =>
        simp only [Except.ok.injEq, Prod.mk.injEq] at h
        exact ⟨r, rfl, hst, hbuyer, h.1.symm, h.2.symm⟩
      next => cases h
    next => cases h

/-- Inversion: what a successful `updateConditions` implies and produces. -/
theorem updateConditions_ok_inv {now : Nat} {c : Identity} {text : String}
    {s s' : SysState} {evs : List Event}
    (h : step now (.updateConditions c text) s = .ok (s', evs)) :
    ∃ r, s.record = some r ∧ r.state = .stInitialized ∧ c = r.buyer ∧
      text.length ≤ 500 ∧
      s' = { s with record := some { r with conditions := text } } ∧
      evs = [Event.ConditionsUpdated text] := by
  rcases hrec : s.record with _ | r <;> simp only [step, hrec] at h
  · cases h
  · split at h
    next hst =>
      split at h
      next hbuyer =>
        split at h
        next => cases h
        next hlen =>
          simp only [Except.ok.injEq, Prod.mk.injEq] at h
          exact ⟨r, rfl, hst, hbuyer, by omega, h.1.symm, h.2.symm⟩
      next => cases h
    next => cases h

/-- Inversion: what a successful `release` implies and produces. -/
theorem release_ok_inv {now : Nat} {c : Identity} {s s' : SysState} {evs : List Event}
    (h : step now (.release c) s = .ok (s', evs)) :
    ∃ r, s.record = some r ∧ r.state = .stFunded ∧ releaseAuthorized r c now ∧
      s' = { s with
              record := some (releaseRec now c r),
              vault := 0,
              sellerHolding := s.sellerHolding + s.vault } ∧
      evs = [Event.Released c r.amount] := by
  rcases hrec : s.record with _ | r <;> simp only [step, hrec] at h
  · cases h
  · split at h
    next hst =>
      split at h
      next hauth =>
        simp only [Except.ok.injEq, Prod.mk.injEq] at h
        exact ⟨r, rfl, hst, hauth, h.1.symm, h.2.symm⟩
      next => cases h
    next => cases h

/-- Inversion: what a successful `cancel` implies and produces. -/
theorem cancel_ok_inv {now : Nat} {c : Identity} {s s' : SysState} {evs : List Event}
    (h : step now (.cancel c) s = .ok (s', evs)) :
    ∃ r, s.record = some r ∧ (r.state = .stInitialized ∨ r.state = .stFunded) ∧
      cancelAuthorized r c ∧
      s' = { s with
              record := some (cancelRec now c r),
              vault := 0,
              buyerHolding :=
                if r.state = .stFunded then s.buyerHolding + s.vault
                else s.buyerHolding } ∧
      evs = [Event.Cancelled c] := by
  rcases hrec : s.record with _ | r <;> simp only [step, hrec] at h
  · cases h
  · split at h
    next hst =>
      split at h
      next hauth =>
        simp only [Except.ok.injEq, Prod.mk.injEq] at h
        exact ⟨r, rfl, hst, hauth, h.1.symm, h.2.symm⟩
      next => cases h
    next => cases h

/-- Inversion: what a successful `close` implies and produces. -/
theorem close_ok_inv {now : Nat} {c : Identity} {s s' : SysState} {evs : List Event}
    (h : step now (.close c) s = .ok (s', evs)) :
    ∃ r, s.record = some r ∧ (r.state = .stReleased ∨ r.state = .stCancelled) ∧
      c = r.buyer ∧
      s' = { s with record := none, buyerNative := s.buyerNative + r.storageDeposit } ∧
      evs = [] := by
  rcases hrec : s.record with _ | r <;> simp only [step, hrec] at h
  · cases h
  · split at h
    next hst =>
      split at h
      next hbuyer =>
        simp only [Except.ok.injEq, Prod.mk.injEq] at h
        exact ⟨r, rfl, hst, hbuyer, h.1.symm, h.2.symm⟩
      next => cases h
    next => cases h

/-- Sample funded record with an arbiter and a timeout, for witnesses. -/
def rFunded : EscrowRecord :=
  { buyer := 1, seller := 2, mint := 3, amount := 100, seed := 7,
    conditions := "c", state := .stFunded, arbiter := some 4,
    timeoutAt := some 50, createdAt := 0, fundedAt := some 1,
    releasedAt := none, cancelledAt := none, releasedBy := none,
    cancelledBy := none, storageDeposit := 5 }

/-- Sample system state holding `rFunded` with the vault at its amount. -/
def sFunded : SysState :=
  { record := some rFunded, vault := 100, buyerHolding := 0,
    sellerHolding := 0, buyerNative := 0 }

/-- Sample Initialized record (no arbiter, no timeout), for witnesses. -/
def rInit : EscrowRecord :=
  { rFunded with
    state := .stInitialized, arbiter := none,
    timeoutAt := none, fundedAt := none }

/-- Sample system state holding `rInit` with an empty vault. -/
def sInit : SysState :=
  { record := some rInit, vault := 0, buyerHolding := 150,
    sellerHolding := 0, buyerNative := 0 }

/-- Sample Released record, for witnesses. -/
def rReleased : EscrowRecord :=
  { rFunded with state := .stReleased, releasedAt := some 2, releasedBy := some 1 }

/-- Sample system state holding `rReleased` with an empty vault. -/
def sReleased : SysState :=
  { record := some rReleased, vault := 0, buyerHolding := 0,
    sellerHolding := 100, buyerNative := 10 }

/-- The timeout check is met exactly when `timeoutAt` is set and reached. -/
theorem isTimedOut_iff (timeoutAt : Option Nat) (now : Nat) :
    isTimedOut timeoutAt now = true ↔ ∃ t, timeoutAt = some t ∧ t ≤ now := by
  cases timeoutAt <;> simp [isTimedOut]

/-- C1: a release on a Funded record succeeds exactly for the buyer, the
arbiter when set, or — when `timeoutAt` is set and reached — any caller;
every other attempt fails with UnauthorizedRelease; without `timeoutAt`
only buyer or arbiter are ever authorized. -/
theorem release_authorization (now : Nat) (s : SysState) (r : EscrowRecord) (c : Identity)
    (hrec : s.record = some r) (hst : r.state = .stFunded) :
    ((step now (.release c) s).isOk = true ↔
      (c = r.buyer ∨ r.arbiter = some c ∨ ∃ t, r.timeoutAt = some t ∧ t ≤ now))
    ∧ (¬(c = r.buyer ∨ r.arbiter = some c ∨ ∃ t, r.timeoutAt = some t ∧ t ≤ now) →
      step now (.release c) s = .error .UnauthorizedRelease)
    ∧ (r.timeoutAt = none →
      ((step now (.release c) s).isOk = true ↔ (c = r.buyer ∨ r.arbiter = some c))) := by
  have hauth : releaseAuthorized r c now ↔
      (c = r.buyer ∨ r.arbiter = some c ∨ ∃ t, r.timeoutAt = some t ∧ t ≤ now) := by
    unfold releaseAuthorized
    rw [isTimedOut_iff]
  by_cases h : releaseAuthorized r c now
  · have hok : (step now (.release c) s).isOk = true := by
      simp [step, hrec, hst, h, Except.isOk, Except.toBool]
    refine ⟨⟨fun _ => hauth.mp h, fun _ => hok⟩, fun hn => absurd (hauth.mp h) hn,
            fun htn => ⟨fun _ => ?_, fun _ => hok⟩⟩
    rcases hauth.mp h with h1 | h2 | ⟨t, ht, _⟩
    · exact Or.inl h1
    · exact Or.inr h2
    · rw [htn] at ht; cases ht
  · have herr : step now (.release c) s = .error .UnauthorizedRelease := by
      simp [step, hrec, hst, h]
    refine ⟨?_, fun _ => herr, fun htn => ?_⟩
    · constructor
      · intro hf; rw [herr] at hf; simp [Except.isOk, Except.toBool] at hf
      · intro hc; exact absurd (hauth.mpr hc) h
    · constructor
      · intro hf; rw [herr] at hf; simp [Except.isOk, Except.toBool] at hf
      · intro hc
        exact absurd (hauth.mpr (hc.elim Or.inl (fun x => Or.inr (Or.inl x)))) h

/-- C1 witness: at time 60 on the sample funded record (timeout 50), an
arbitrary third party's release succeeds via the timeout path. -/
theorem release_authorization_witness :
    (step 60 (.release 9) sFunded).isOk = true := by
  have h := release_authorization 60 sFunded rFunded 9 rfl rfl
  exact h.1.mpr (Or.inr (Or.inr ⟨50, rfl, by norm_num⟩))

/-- Every successful step preserves the vault balance invariant. -/
theorem step_preserves_vaultInv (now : Nat) (op : Op) (s s' : SysState) (evs : List Event)
    (hinv : vaultInv s) (h : step now op s = .ok (s', evs)) : vaultInv s' := by
  cases op with
  | create caller amount seed seller mint conds td rent =>
    obtain ⟨hrec, -, -, hs', -⟩ := create_ok_inv h
    subst hs'
    simp only [vaultInv, hrec] at hinv
    simp [vaultInv, mkRecord, hinv]
  | deposit c =>
    obtain ⟨r, hrec, hst, -, hs', -⟩ := deposit_ok_inv h
    subst hs'
    simp only [vaultInv, hrec] at hinv
    rw [hst] at hinv
    simp at hinv
    simp [vaultInv, fundRec, hinv]
  | setArbiter c a =>
    obtain ⟨r, hrec, -, -, hs', -⟩ := setArbiter_ok_inv h
    subst hs'
    simp only [vaultInv, hrec] at hinv
    simpa [vaultInv] using hinv
  | updateConditions c text =>
    obtain ⟨r, hrec, -, -, -, hs', -⟩ := updateConditions_ok_inv h
    subst hs'
    simp only [vaultInv, hrec] at hinv
    simpa [vaultInv] using hinv
  | release c =>
    obtain ⟨r, hrec, -, -, hs', -⟩ := release_ok_inv h
    subst hs'
    simp [vaultInv, releaseRec]
  | cancel c =>
    obtain ⟨r, hrec, -, -, hs', -⟩ := cancel_ok_inv h
    subst hs'
    simp [vaultInv, cancelRec]
  | close c =>
    obtain ⟨r, hrec, hst, -, hs', -⟩ := close_ok_inv h
    subst hs'
    simp only [vaultInv, hrec] at hinv
    rcases hst with h1 | h1 <;> rw [h1] at hinv <;> simpa [vaultInv] using hinv

/-- C2: at every observation point between operations — i.e. in every
reachable state — the vault balance equals the record's amount when the
record is Funded and 0 in every other state, including after close. -/
theorem vault_balance_invariant (s : SysState) (h : Reachable s) : vaultInv s := by
  induction h with
  | start bh sh bn => simp [vaultInv]
  | next now op s hr ih =>
    cases hstep : step now op s with
    | error e => simpa [applyOp, hstep] using ih
    | ok p =>
      rcases p with ⟨s', evs⟩
      have hfst : (applyOp now op s).1 = s' := by simp [applyOp, hstep]
      rw [hfst]
      exact step_preserves_vaultInv now op s s' evs ih hstep

/-- C2 witness: the invariant holds in the concrete state reached by a
create operation from an empty slot. -/
theorem vault_balance_invariant_witness :
    vaultInv (applyOp 5 (Op.create 1 100 7 2 3 "c" none 4)
      { record := none, vault := 0, buyerHolding := 100,
        sellerHolding := 0, buyerNative := 9 }).1 :=
  vault_balance_invariant _ (Reachable.next 5 _ _ (Reachable.start 100 0 9))

/-- The state carried by the record slot. -/
def stateOf (rec : Option EscrowRecord) : Option EscrowState :=
  rec.map EscrowRecord.state

/-- The transition graph of spec section 4.1: a step either keeps the
state, creates an Initialized record, moves Initialized to Funded or
Cancelled, moves Funded to Released or Cancelled, or closes a terminal
record. -/
def edgeOk (a b : Option EscrowState) : Prop :=
  a = b
  ∨ (a = none ∧ b = some .stInitialized)
  ∨ (a = some .stInitialized ∧ (b = some .stFunded ∨ b = some .stCancelled))
  ∨ (a = some .stFunded ∧ (b = some .stReleased ∨ b = some .stCancelled))
  ∨ ((a = some .stReleased ∨ a = some .stCancelled) ∧ b = none)

/-- C4: every successful operation moves the record state only along the
graph Initialized to Funded or Cancelled, Funded to Released or
Cancelled, terminal states only to close — so no record ever regresses —
and a second deposit on a Funded record fails with InvalidState. -/
theorem state_transition_graph :
    (∀ (now : Nat) (op : Op) (s s' : SysState) (evs : List Event),
      step now op s = .ok (s', evs) → edgeOk (stateOf s.record) (stateOf s'.record))
    ∧ (∀ (now : Nat) (c : Identity) (s : SysState) (r : EscrowRecord),
      s.record = some r → r.state = .stFunded →
      step now (.deposit c) s = .error .InvalidState) := by
  constructor
  · intro now op s s' evs h
    cases op with
    | create caller amount seed seller mint conds td rent =>
      obtain ⟨hrec, -, -, hs', -⟩ := create_ok_inv h
      subst hs'
      simp [stateOf, edgeOk, hrec, mkRecord]
    | deposit c =>
      obtain ⟨r, hrec, hst, -, hs', -⟩ := deposit_ok_inv h
      subst hs'
      simp [stateOf, edgeOk, hrec, fundRec, hst]
    | setArbiter c a =>
      obtain ⟨r, hrec, -, -, hs', -⟩ := setArbiter_ok_inv h
      subst hs'
      simp [stateOf, edgeOk, hrec]
    | updateConditions c text =>
      obtain ⟨r, hrec, -, -, -, hs', -⟩ := updateConditions_ok_inv h
      subst hs'
      simp [stateOf, edgeOk, hrec]
    | release c =>
      obtain ⟨r, hrec, hst, -, hs', -⟩ := release_ok_inv h
      subst hs'
      simp [stateOf, edgeOk, hrec, releaseRec, hst]
    | cancel c =>
      obtain ⟨r, hrec, hst, -, hs', -⟩ := cancel_ok_inv h
      subst hs'
      rcases hst with h1 | h1 <;> simp [stateOf, edgeOk, hrec, cancelRec, h1]
    | close c =>
      obtain ⟨r, hrec, hst, -, hs', -⟩ := close_ok_inv h
      subst hs'
      rcases hst with h1 | h1 <;> simp [stateOf, edgeOk, hrec, h1]
  · intro now c s r hrec hst
    simp [step, hrec, hst]

/-- C4 witness: the release step from the sample funded state follows the
graph, and a second deposit on that funded record fails with InvalidState. -/
theorem state_transition_graph_witness :
    edgeOk (stateOf sFunded.record) (stateOf (applyOp 60 (Op.release 1) sFunded).1.record)
    ∧ step 0 (Op.deposit 1) sFunded = .error .InvalidState :=
  ⟨state_transition_graph.1 60 (Op.release 1) sFunded (applyOp 60 (Op.release 1) sFunded).1
      [Event.Released 1 100] rfl,
    state_transition_graph.2 0 1 sFunded rFunded rfl rfl⟩

/-- C3: a failing operation has no observable effect — under the host's
atomic commit the state (record and vault included) is unchanged and no
event is emitted. -/
theorem error_no_effect (now : Nat) (op : Op) (s : SysState) (e : EscrowError)
    (h : step now op s = .error e) :
    applyOp now op s = (s, []) := by
  simp [applyOp, h]

/-- C3 witness: deposit on an empty slot fails with InvalidState and
leaves the state untouched with no events. -/
theorem error_no_effect_witness :
    applyOp 0 (.deposit 1)
      { record := none, vault := 0, buyerHolding := 3, sellerHolding := 0, buyerNative := 0 }
    = ({ record := none, vault := 0, buyerHolding := 3, sellerHolding := 0, buyerNative := 0 }, []) :=
  error_no_effect 0 (.deposit 1) _ .InvalidState rfl

/-- C5: on an Initialized record only the buyer's deposit succeeds,
moving exactly `amount` from the buyer's holding into the vault, setting
state Funded and `fundedAt`; any other caller fails with
UnauthorizedDepositor and the vault stays at 0. -/
theorem deposit_authorization (now : Nat) (s : SysState) (r : EscrowRecord) (c : Identity)
    (hrec : s.record = some r) (hst : r.state = .stInitialized)
    (hv : s.vault = 0) (hfunds : r.amount ≤ s.buyerHolding) :
    (c = r.buyer →
      step now (.deposit c) s =
        .ok ({ s with
               record := some (fundRec now r), vault := r.amount,
               buyerHolding := s.buyerHolding - r.amount }, [Event.Funded r.amount])
      ∧ s.buyerHolding - r.amount + r.amount = s.buyerHolding)
    ∧ (c ≠ r.buyer →
      step now (.deposit c) s = .error .UnauthorizedDepositor
      ∧ (applyOp now (.deposit c) s).1.vault = 0) := by
  constructor
  · intro hb
    refine ⟨by simp [step, hrec, hst, hb, hv], by omega⟩
  · intro hb
    have herr : step now (.deposit c) s = .error .UnauthorizedDepositor := by
      simp [step, hrec, hst, hb]
    exact ⟨herr, by simp [applyOp, herr, hv]⟩

/-- C5 witness: the buyer's deposit on the sample Initialized escrow
yields the funded state with the vault at the full amount. -/
theorem deposit_authorization_witness :
    step 2 (Op.deposit 1) sInit =
      .ok ({ sInit with
             record := some (fundRec 2 rInit), vault := 100,
             buyerHolding := 50 }, [Event.Funded 100]) := by
  have h := (deposit_authorization 2 sInit rInit 1 rfl rfl rfl (by decide)).1 rfl
  exact h.1

/-- C6: on an Initialized or Funded record, cancel succeeds exactly for
the buyer or the arbiter once set, marking the record Cancelled with
`cancelledAt` and `cancelledBy`; a Funded cancel returns the full amount
to the buyer and empties the vault, an Initialized cancel moves nothing;
all other callers fail with UnauthorizedCancel. -/
theorem cancel_authorization (now : Nat) (s : SysState) (r : EscrowRecord) (c : Identity)
    (hrec : s.record = some r) (hst : r.state = .stInitialized ∨ r.state = .stFunded)
    (hinv : vaultInv s) :
    (cancelAuthorized r c →
      step now (.cancel c) s =
        .ok ({ s with
               record := some (cancelRec now c r), vault := 0,
               buyerHolding :=
                 if r.state = .stFunded then s.buyerHolding + r.amount
                 else s.buyerHolding }, [Event.Cancelled c]))
    ∧ (¬cancelAuthorized r c →
      step now (.cancel c) s = .error .UnauthorizedCancel) := by
  have hv : s.vault = if r.state = .stFunded then r.amount else 0 := by
    simpa [vaultInv, hrec] using hinv
  constructor
  · intro hauth
    rcases hst with h1 | h1
    · have hv0 : s.vault = 0 := by rw [h1] at hv; simpa using hv
      simp [step, hrec, h1, hauth, hv0]
    · have hva : s.vault = r.amount := by rw [h1] at hv; simpa using hv
      simp [step, hrec, h1, hauth, hva]
  · intro hauth
    rcases hst with h1 | h1 <;> simp [step, hrec, h1, hauth]

/-- C6 witness: the arbiter cancels the sample funded escrow; the full
amount returns to the buyer's holding and the vault empties. -/
theorem cancel_authorization_witness :
    step 7 (Op.cancel 4) sFunded =
      .ok ({ sFunded with
             record := some (cancelRec 7 4 rFunded), vault := 0,
             buyerHolding := 100 }, [Event.Cancelled 4]) := by
  have h := (cancel_authorization 7 sFunded rFunded 4 rfl (Or.inr rfl) (by rfl)).1 (Or.inr rfl)
  exact h

/-- C7: create with amount 0 fails with InvalidAmount creating no record;
a valid create (unused identity, positive amount, conditions within 500)
yields an Initialized record with the given amount, `createdAt` set, and
the vault still at 0. -/
theorem create_validation (now : Nat) (caller : Identity) (amount seed : Nat)
    (seller mint : Identity) (conds : String) (td : Option Nat) (rent : Nat)
    (s : SysState) (hrec : s.record = none) :
    (amount = 0 →
      step now (.create caller amount seed seller mint conds td rent) s = .error .InvalidAmount
      ∧ (applyOp now (.create caller amount seed seller mint conds td rent) s).1.record = none)
    ∧ (0 < amount → conds.length ≤ 500 → s.vault = 0 →
      step now (.create caller amount seed seller mint conds td rent) s =
        .ok ({ s with
                record := some (mkRecord now caller amount seed seller mint conds td rent),
                buyerNative := s.buyerNative - rent },
             [Event.Created caller seller amount mint])
      ∧ (mkRecord now caller amount seed seller mint conds td rent).state = .stInitialized
      ∧ (mkRecord now caller amount seed seller mint conds td rent).amount = amount
      ∧ (mkRecord now caller amount seed seller mint conds td rent).createdAt = now
      ∧ (applyOp now (.create caller amount seed seller mint conds td rent) s).1.vault = 0) := by
  constructor
  · intro h0
    have herr : step now (.create caller amount seed seller mint conds td rent) s
        = .error .InvalidAmount := by
      simp [step, hrec, h0]
    exact ⟨herr, by simp [applyOp, herr, hrec]⟩
  · intro hpos hlen hv
    have h0 : ¬(amount = 0) := by omega
    have hl : ¬(conds.length > 500) := by omega
    have hok : step now (.create caller amount seed seller mint conds td rent) s =
        .ok ({ s with
                record := some (mkRecord now caller amount seed seller mint conds td rent),
                buyerNative := s.buyerNative - rent },
             [Event.Created caller seller amount mint]) := by
      simp [step, hrec, h0, hl]
    exact ⟨hok, rfl, rfl, rfl, by simp [applyOp, hok, hv]⟩

/-- C7 witness: create with amount 0 on an empty slot fails with
InvalidAmount and creates no record. -/
theorem create_validation_witness :
    step 0 (Op.create 1 0 7 2 3 "c" none 4)
      { record := none, vault := 0, buyerHolding := 10,
        sellerHolding := 0, buyerNative := 9 } = .error .InvalidAmount
    ∧ (applyOp 0 (Op.create 1 0 7 2 3 "c" none 4)
        { record := none, vault := 0, buyerHolding := 10,
          sellerHolding := 0, buyerNative := 9 }).1.record = none :=
  (create_validation 0 1 0 7 2 3 "c" none 4
    { record := none, vault := 0, buyerHolding := 10,
      sellerHolding := 0, buyerNative := 9 } rfl).1 rfl

/-- C8: close fails with InvalidState unless the record is Released or
Cancelled, fails with UnauthorizedClose for any caller but the buyer,
and a successful close implies the caller was the buyer, removes the
record, and returns the storage deposit to the buyer. -/
theorem close_validation (now : Nat) (s : SysState) (r : EscrowRecord) (c : Identity)
    (hrec : s.record = some r) :
    (¬(r.state = .stReleased ∨ r.state = .stCancelled) →
      step now (.close c) s = .error .InvalidState)
    ∧ ((r.state = .stReleased ∨ r.state = .stCancelled) → c ≠ r.buyer →
      step now (.close c) s = .error .UnauthorizedClose)
    ∧ (∀ (s' : SysState) (evs : List Event), step now (.close c) s = .ok (s', evs) →
      c = r.buyer ∧ s'.record = none ∧ s'.buyerNative = s.buyerNative + r.storageDeposit) := by
  refine ⟨?_, ?_, ?_⟩
  · intro hst; simp [step, hrec, hst]
  · intro hst hb; simp [step, hrec, hst, hb]
  · intro s' evs h
    obtain ⟨r', hrec', hst', hb, hs', -⟩ := close_ok_inv h
    rw [hrec] at hrec'
    injection hrec' with hr
    subst hr
    subst hs'
    exact ⟨hb, rfl, rfl⟩

/-- C8 witness: the buyer closes the sample released escrow; the record
disappears and the storage deposit returns to the buyer. -/
theorem close_validation_witness :
    (1 : Identity) = rReleased.buyer ∧
    ({ sReleased with record := none, buyerNative := 15 } : SysState).record = none ∧
    ({ sReleased with record := none, buyerNative := 15 } : SysState).buyerNative =
      sReleased.buyerNative + rReleased.storageDeposit :=
  (close_validation 9 sReleased rReleased 1 rfl).2.2
    { sReleased with record := none, buyerNative := 15 } [] rfl

/-! Byte-level model of the client SDK (client/escrow-client.ts):
address derivation inputs and the account queries. Identities here are
32-byte strings, as on the wire. -/

/-- Embedded from `escrowSeed.toArrayLike(Buffer, "le", 8)`: the 8-byte
little-endian encoding of the escrow seed. -/
def le8 (n : Nat) : List Nat :=
  [n % 256, n / 256 % 256, n / 65536 % 256, n / 16777216 % 256,
   n / 4294967296 % 256, n / 1099511627776 % 256,
   n / 281474976710656 % 256, n / 72057594037927936 % 256]

/-- ASCII bytes of the namespace string from `Buffer.from("escrow")`. -/
def escrowTag : List Nat := [101, 115, 99, 114, 111, 119]

/-- ASCII bytes of the namespace string from `Buffer.from("vault")`. -/
def vaultTag : List Nat := [118, 97, 117, 108, 116]

/-- Embedded from generateEscrowPDAs (client/escrow-client.ts:48): the
flattened seed material that determines the escrow PDA. The PDA itself is
the SHA-256 image of these bytes plus the fixed program id, so it is a
deterministic pure function of them; distinct byte strings yield
distinct addresses except with negligible hash-collision probability. -/
def escrowSeedBytes (buyer : List Nat) (seed : Nat) : List Nat :=
  escrowTag ++ (buyer ++ le8 seed)

/-- Embedded from generateEscrowPDAs (client/escrow-client.ts:63): the
flattened seed material that determines the vault PDA. -/
def vaultSeedBytes (buyer : List Nat) (seed : Nat) : List Nat :=
  vaultTag ++ (buyer ++ le8 seed)

/-- The little-endian byte encoding is injective on 64-bit seeds. -/
theorem le8_inj {s1 s2 : Nat} (hs1 : s1 < 2 ^ 64) (hs2 : s2 < 2 ^ 64)
    (h : le8 s1 = le8 s2) : s1 = s2 := by
  simp only [le8, List.cons.injEq, and_true] at h
  norm_num at hs1 hs2
  omega

/-- C9: PDA derivation is deterministic — equal (buyer, seed) inputs give
equal escrow and vault seed material, hence equal derived addresses — and
injective: equal escrow (or vault) seed material forces equal inputs, and
the escrow and vault namespaces never collide with each other. -/
theorem pda_derivation (b1 b2 : List Nat) (s1 s2 : Nat)
    (hb1 : b1.length = 32) (hb2 : b2.length = 32)
    (hs1 : s1 < 2 ^ 64) (hs2 : s2 < 2 ^ 64) :
    (b1 = b2 → s1 = s2 →
      escrowSeedBytes b1 s1 = escrowSeedBytes b2 s2
      ∧ vaultSeedBytes b1 s1 = vaultSeedBytes b2 s2)
    ∧ (escrowSeedBytes b1 s1 = escrowSeedBytes b2 s2 → b1 = b2 ∧ s1 = s2)
    ∧ (vaultSeedBytes b1 s1 = vaultSeedBytes b2 s2 → b1 = b2 ∧ s1 = s2)
    ∧ escrowSeedBytes b1 s1 ≠ vaultSeedBytes b2 s2 := by
  refine ⟨fun hb hs => by rw [hb, hs]; exact ⟨rfl, rfl⟩, ?_, ?_, ?_⟩
  · intro h
    have h' := List.append_cancel_left (h : escrowTag ++ _ = escrowTag ++ _)
    obtain ⟨hb, hs⟩ := List.append_inj h' (hb1.trans hb2.symm)
    exact ⟨hb, le8_inj hs1 hs2 hs⟩
  · intro h
    have h' := List.append_cancel_left (h : vaultTag ++ _ = vaultTag ++ _)
    obtain ⟨hb, hs⟩ := List.append_inj h' (hb1.trans hb2.symm)
    exact ⟨hb, le8_inj hs1 hs2 hs⟩
  · intro h
    have hlen := congrArg List.length h
    simp [escrowSeedBytes, vaultSeedBytes, escrowTag, vaultTag, le8, hb1, hb2] at hlen

/-- C9 witness: for a concrete 32-byte buyer and seed, the escrow and
vault seed material differ (namespace separation). -/
theorem pda_derivation_witness :
    escrowSeedBytes (List.replicate 32 0) 7 ≠ vaultSeedBytes (List.replicate 32 0) 7 :=
  (pda_derivation (List.replicate 32 0) (List.replicate 32 0) 7 7
    (by simp) (by simp) (by norm_num) (by norm_num)).2.2.2

/-- One stored escrow account as the queries see it: buyer and seller
identities as 32-byte strings plus the serialized remainder of the
record. -/
structure StoredEscrow where
  buyer : List Nat
  seller : List Nat
  rest : List Nat
deriving DecidableEq, Repr

/-- Modelled from the spec: the account byte layout behind the queries
(spec section 6 record layout; the on-chain account struct is absent from
the repository sources): an 8-byte discriminator, the buyer at offset 8,
the seller at offset 40, then the rest of the record. -/
def serializeAccount (disc : List Nat) (r : StoredEscrow) : List Nat :=
  disc ++ (r.buyer ++ (r.seller ++ r.rest))

/-- Embedded from the Anchor memcmp filter used by the queries: the
account data at `off` equals the given byte string. -/
def memcmpMatches (off : Nat) (bytes data : List Nat) : Bool :=
  decide ((data.drop off).take bytes.length = bytes)

/-- Embedded from getEscrowsForBuyer (client/escrow-client.ts:286): keep
the accounts whose bytes at offset 8 equal the buyer key. -/
def getEscrowsForBuyer (disc : List Nat) (store : List StoredEscrow)
    (buyer : List Nat) : List StoredEscrow :=
  store.filter (fun r => memcmpMatches 8 buyer (serializeAccount disc r))

/-- Embedded from getEscrowsForSeller (client/escrow-client.ts:322): keep
the accounts whose bytes at offset 8 + 32 equal the seller key. -/
def getEscrowsForSeller (disc : List Nat) (store : List StoredEscrow)
    (seller : List Nat) : List StoredEscrow :=
  store.filter (fun r => memcmpMatches 40 seller (serializeAccount disc r))

/-- C10: every account returned by getEscrowsForBuyer has its buyer field
byte-for-byte equal to the queried key, and every account returned by
getEscrowsForSeller has its seller field equal to the queried key. -/
theorem query_filters_by_principal (disc : List Nat) (store : List StoredEscrow)
    (key : List Nat) (hd : disc.length = 8) (hk : key.length = 32)
    (hwf : ∀ r ∈ store, r.buyer.length = 32 ∧ r.seller.length = 32) :
    (∀ r ∈ getEscrowsForBuyer disc store key, r.buyer = key)
    ∧ (∀ r ∈ getEscrowsForSeller disc store key, r.seller = key) := by
  constructor
  · intro r hr
    rw [getEscrowsForBuyer, List.mem_filter] at hr
    obtain ⟨hmem, hpred⟩ := hr
    obtain ⟨hbl, -⟩ := hwf r hmem
    rw [memcmpMatches, decide_eq_true_iff, hk, serializeAccount,
        List.drop_left' hd, List.take_left' hbl] at hpred
    exact hpred
  · intro r hr
    rw [getEscrowsForSeller, List.mem_filter] at hr
    obtain ⟨hmem, hpred⟩ := hr
    obtain ⟨hbl, hsl⟩ := hwf r hmem
    rw [memcmpMatches, decide_eq_true_iff, hk, serializeAccount] at hpred
    have hdrop : (disc ++ (r.buyer ++ (r.seller ++ r.rest))).drop 40
        = r.seller ++ r.rest := by
      have h8 : (disc ++ (r.buyer ++ (r.seller ++ r.rest))).drop 8
          = r.buyer ++ (r.seller ++ r.rest) := List.drop_left' hd
      calc (disc ++ (r.buyer ++ (r.seller ++ r.rest))).drop 40
          = ((disc ++ (r.buyer ++ (r.seller ++ r.rest))).drop 8).drop 32 := by
            rw [List.drop_drop]
        _ = (r.buyer ++ (r.seller ++ r.rest)).drop 32 := by rw [h8]
        _ = r.seller ++ r.rest := List.drop_left' hbl
    rw [hdrop, List.take_left' hsl] at hpred
    exact hpred

/-- C10 witness: on a concrete two-account store, an account returned by
the buyer query has its buyer equal to the key. -/
theorem query_filters_by_principal_witness :
    (⟨List.replicate 32 1, List.replicate 32 2, [9]⟩ : StoredEscrow).buyer
      = List.replicate 32 1 :=
  (query_filters_by_principal (List.replicate 8 0)
    [⟨List.replicate 32 1, List.replicate 32 2, [9]⟩,
     ⟨List.replicate 32 3, List.replicate 32 2, [9]⟩]
    (List.replicate 32 1) (by simp) (by simp)
    (by intro r hr; fin_cases hr <;> simp)).1
    ⟨List.replicate 32 1, List.replicate 32 2, [9]⟩ (by decide)

end EscrowSys
